import Mathlib

/-!
Air-quality collection pipeline: wind parser, field extractor, retrying fetch,
per-time-point processing and the hourly scheduler of `main.go`.

Strings are Go strings restricted to valid UTF-8 and handled as lists of
characters. Go's `int` is the 64-bit signed integer of the build target.
-/

namespace AirQuality

/-! ## Wind parser (`extractWindData`) -/

/-- White space in the sense of Go's `unicode.IsSpace`, which `strings.Fields`
splits on and `fmt` skips. -/
def isSpace (c : Char) : Bool :=
  let n := c.toNat
  (9 ≤ n && n ≤ 13) || n == 32 || n == 0x85 || n == 0xA0 || n == 0x1680 ||
  (0x2000 ≤ n && n ≤ 0x200A) || n == 0x2028 || n == 0x2029 || n == 0x202F ||
  n == 0x205F || n == 0x3000

/-- The scanning loop of `strings.Fields`: `cur` is the field being read
(`none` when the scan is between fields, Go's `start < 0`). -/
def fieldsLoop : List Char → Option (List Char) → List (List Char)
  | [], none => []
  | [], some cur => [cur]
  | c :: cs, none => if isSpace c then fieldsLoop cs none else fieldsLoop cs (some [c])
  | c :: cs, some cur =>
    if isSpace c then cur :: fieldsLoop cs none else fieldsLoop cs (some (cur ++ [c]))

/-- Go's `strings.Fields`: the maximal runs of non-space characters, in order. -/
def fields (s : List Char) : List (List Char) := fieldsLoop s none

/-- ASCII decimal digit, the `decimalDigits` set of `fmt`. -/
def isDecDigit (c : Char) : Bool := 48 ≤ c.toNat && c.toNat ≤ 57

/-- Sign character, the `sign` set of `fmt`. -/
def isSign (c : Char) : Bool := c == '+' || c == '-'

/-- Width in bits of Go's `int` on the build target. -/
def intBits : Nat := 64

/-- Value accumulated by `strconv.ParseUint` in base 10 over a digit string. -/
def digitsValue (ds : List Char) : Nat :=
  ds.foldl (fun acc c => acc * 10 + (c.toNat - 48)) 0

/-- Go's `strconv.ParseInt(tok, 10, bitSize)` on a token made of an optional
sign and digits: `none` stands for a returned error (empty digits or a value
outside the signed range). -/
def parseInt (tok : List Char) (bitSize : Nat) : Option Int :=
  let neg := tok.head? == some '-'
  let body := match tok with
    | c :: cs => if isSign c then cs else tok
    | [] => tok
  if body.isEmpty || !body.all isDecDigit then none
  else
    let un := digitsValue body
    let cutoff := 2 ^ (bitSize - 1)
    if !neg && cutoff ≤ un then none
    else if neg && cutoff < un then none
    else some (if neg then -(un : Int) else (un : Int))

/-- The token buffer filled by `(*ss).scanInt` for verb `%d`: leading space is
skipped, one optional sign is accepted, then `scanNumber` requires one digit
and accepts all following digits. `none` is the scan error. -/
def scanIntToken (input : List Char) : Option (List Char) :=
  let input := input.dropWhile isSpace
  match input with
  | [] => none
  | c :: cs =>
    let sgn := if isSign c then [c] else []
    let rest := if isSign c then cs else c :: cs
    let ds := rest.takeWhile isDecDigit
    if ds.isEmpty then none else some (sgn ++ ds)

/-- Go's `fmt.Sscanf(tok, "%d", &v)` where `v` holds `old` before the call:
the scanned integer on success, otherwise `v` is left untouched (the error
return is dropped by the caller). -/
def sscanfD (tok : List Char) (old : Int) : Int :=
  match scanIntToken tok with
  | none => old
  | some buf =>
    match parseInt buf intBits with
    | none => old
    | some v => v

/-- The function `extractWindData` of `main.go`. `none` is the run-time panic
of an index out of range on `parts[0]` or `parts[2]`. -/
def extractWindData (windInfo : String) : Option (Int × Int) :=
  let parts := fields windInfo.toList
  match parts[0]? with
  | none => none
  | some p0 =>
    let direction := sscanfD p0 0
    match parts[2]? with
    | none => none
    | some p2 =>
      let speed := sscanfD p2 0
      some (direction, speed)

/-! ## Field extractor (`extractData`)

The document tree is the one built by `golang.org/x/net/html`; `Find` and
`Text` are the `goquery` selection operations the extractor calls, and the
selector matcher is the one `cascadia` compiles. -/

/-- Node kinds of `html.Node`. -/
inductive NodeType where
  | errorNode | textNode | documentNode | elementNode | commentNode | doctypeNode
deriving DecidableEq, Repr

/-- An attribute of an element, `html.Attribute`. -/
structure Attribute where
  key : String
  val : String
deriving DecidableEq, Repr

/-- A node of a parsed document, `html.Node`, with its children in order. -/
inductive Node where
  | mk (type : NodeType) (data : String) (attr : List Attribute) (children : List Node)

/-- Kind of a node. -/
def Node.type : Node → NodeType
  | .mk t _ _ _ => t

/-- Tag name of an element, content of a text node. -/
def Node.data : Node → String
  | .mk _ d _ _ => d

/-- Attributes of a node. -/
def Node.attr : Node → List Attribute
  | .mk _ _ a _ => a

/-- Children of a node. -/
def Node.children : Node → List Node
  | .mk _ _ _ c => c

/-- One attribute test of a compound selector: `[key]` or `[key="val"]`. -/
inductive AttrTest where
  | has (key : String)
  | equals (key val : String)
deriving DecidableEq, Repr

/-- A compound selector `tag[..][..]`. -/
structure Compound where
  tag : String
  tests : List AttrTest
deriving DecidableEq, Repr

/-- The selectors used by `fetchData`: a compound selector, or a descendant
combinator `ancestor compound`. -/
inductive Selector where
  | compound (c : Compound)
  | descendant (ancestor : Selector) (c : Compound)
deriving Repr

/-- Whether a node passes one attribute test (any attribute with that key). -/
def AttrTest.holds (n : Node) : AttrTest → Bool
  | .has k => n.attr.any (fun a => a.key == k)
  | .equals k v => n.attr.any (fun a => a.key == k && a.val == v)

/-- Whether a node matches a compound selector; only elements match. -/
def Compound.matchNode (c : Compound) (n : Node) : Bool :=
  n.type == NodeType.elementNode && n.data == c.tag && c.tests.all (AttrTest.holds n)

/-- Whether some node of an ancestor chain (nearest first) is accepted by `m`,
each one judged with its own ancestors: the parent walk of the descendant
combinator. -/
def anyAncestor (m : List Node → Node → Bool) : List Node → Bool
  | [] => false
  | p :: ps => m ps p || anyAncestor m ps

/-- The compiled matcher of a selector: the node and its ancestors, nearest
first. -/
def Selector.matchNode : Selector → List Node → Node → Bool
  | .compound c, _, n => c.matchNode n
  | .descendant a c, ancs, n => c.matchNode n && anyAncestor a.matchNode ancs

mutual
/-- The traversal `matchAllInto` of `cascadia`: the nodes of the subtree at
`n` that match, in document order, appended to `storage`. -/
def matchAllInto (m : List Node → Node → Bool) : List Node → Node → List Node → List Node
  | ancs, .mk ty d at_ ch, storage =>
    matchAllChildren m (Node.mk ty d at_ ch :: ancs) ch
      (if m ancs (.mk ty d at_ ch) then storage ++ [Node.mk ty d at_ ch] else storage)
/-- The child loop of `matchAllInto`. -/
def matchAllChildren (m : List Node → Node → Bool) : List Node → List Node → List Node → List Node
  | _, [], storage => storage
  | ancs, c :: cs, storage => matchAllChildren m ancs cs (matchAllInto m ancs c storage)
end

/-- The child loop of `findWithMatcher` for one node of the selection: every
element child contributes the matches of its subtree. -/
def findInChildren (m : List Node → Node → Bool) (ancs : List Node) :
    List Node → List Node → List Node
  | [], result => result
  | c :: cs, result =>
    findInChildren m ancs cs
      (if c.type == NodeType.elementNode then result ++ matchAllInto m ancs c [] else result)

/-- The selection `doc.Find(selector)` of a document whose selection is its
root node. Matches found under one root sit at distinct positions, so the
duplicate filter of `mapNodes` keeps them all. -/
def find (root : Node) (sel : Selector) : List Node :=
  findInChildren sel.matchNode [root] root.children []

mutual
/-- The recursive writer of `Selection.Text`: the data of every text node of
the subtree, in document order, appended to the builder. -/
def writeText : Node → String → String
  | .mk ty d _ ch, acc => writeTextList ch (if ty = NodeType.textNode then acc ++ d else acc)
/-- The child loop of `writeText`. -/
def writeTextList : List Node → String → String
  | [], acc => acc
  | c :: cs, acc => writeTextList cs (writeText c acc)
end

/-- The method `Selection.Text`: the writer run over every node of the selection. -/
def selectionText (nodes : List Node) : String :=
  nodes.foldl (fun acc n => writeText n acc) ""

/-! ## Effects -/

/-- One stored row: the arguments `saveData` hands to the `INSERT`. -/
structure Row where
  timestamp : Int
  coords : String
  direction : Int
  speed : Int
  pm1 : String
  pm25 : String
  pm10 : String
deriving DecidableEq, Repr

/-- The messages the program logs. -/
inductive LogMsg where
  | attemptFailed (attempt : Nat)
  | retrying
  | retriesExhausted
  | parseFailed
  | missing (overlay : String)
  | saveFailed
deriving DecidableEq, Repr

/-- The observable effects of the pipeline, in program order. -/
inductive Event where
  | render (url : String) (attempt : Nat)
  | sleep (nanoseconds : Int)
  | logPrintf (msg : LogMsg)
  | logFatalf (msg : LogMsg)
  | saveData (row : Row)
  | printSample (row : Row)
deriving DecidableEq, Repr

/-- How a call ends: it returns a value, the process exits through
`log.Fatalf`, or the goroutine panics. -/
inductive Res (α : Type) where
  | ret (a : α)
  | fatal
  | panic
deriving DecidableEq, Repr

/-- A computation with effects: the events it performs and how it ends. -/
def Proc (α : Type) : Type := List Event × Res α

/-- A computation that returns at once. -/
def Proc.pure {α : Type} (a : α) : Proc α := ([], Res.ret a)

/-- A single effect. -/
def Proc.emit (e : Event) : Proc Unit := ([e], Res.ret ())

/-- The call `log.Fatalf`: the message, then the process exits. -/
def Proc.fatalf {α : Type} (msg : LogMsg) : Proc α := ([Event.logFatalf msg], Res.fatal)

/-- A run-time panic. -/
def Proc.panic {α : Type} : Proc α := ([], Res.panic)

/-- Sequencing: the continuation runs only when the first part returns. -/
def Proc.bind {α β : Type} (p : Proc α) (f : α → Proc β) : Proc β :=
  match p.2 with
  | Res.ret a => (p.1 ++ (f a).1, (f a).2)
  | Res.fatal => (p.1, Res.fatal)
  | Res.panic => (p.1, Res.panic)

/-- The collaborators of the pipeline. `url t overlay` is the address
`fmt.Sprintf` builds for time point `t` and an overlay; `render url attempt` is
the page `chromedp.Run` yields at that attempt (`none` is its error); `parse`
is `goquery.NewDocumentFromReader` (`none` is its error); `exec row` tells
whether `db.Exec` succeeds. -/
structure Env where
  url : Int → String → String
  render : String → Nat → Option String
  parse : String → Option Node
  exec : Row → Bool

/-- The function `extractData` of `main.go`. -/
def extractData (parse : String → Option Node) (htmlContent : String) (selector : Selector) :
    Proc String :=
  match parse htmlContent with
  | none => Proc.fatalf LogMsg.parseFailed
  | some doc => Proc.pure (selectionText (find doc selector))

/-! ## Fetch with retry (`fetchData`) -/

/-- The constant `maxRetries` of `fetchData`. -/
def maxRetries : Nat := 3

/-- The constant `retryDelay` of `fetchData`, `5 * time.Second` in nanoseconds. -/
def retryDelay : Int := 5 * 1000000000

/-- The selector `div[data-name="spotlight-coords"]`. -/
def selCoords : Selector :=
  .compound ⟨"div", [.equals "data-name" "spotlight-coords"]⟩

/-- The selector `div[data-name="spotlight-a"]`. -/
def selWind : Selector :=
  .compound ⟨"div", [.equals "data-name" "spotlight-a"]⟩

/-- The selector `div[data-name="spotlight-b"] div[aria-label]`. -/
def selPm : Selector :=
  .descendant (.compound ⟨"div", [.equals "data-name" "spotlight-b"]⟩) ⟨"div", [.has "aria-label"]⟩

/-- The body of the retry loop of `fetchData` over the attempt numbers still
to come; the empty list is the fall-through `return "", "", ""`. -/
def fetchAttempts (env : Env) (url : String) : List Nat → Proc (String × String × String)
  | [] => Proc.pure ("", "", "")
  | attempt :: more =>
    Proc.bind (Proc.emit (Event.render url attempt)) fun _ =>
    match env.render url attempt with
    | none =>
      Proc.bind (Proc.emit (Event.logPrintf (LogMsg.attemptFailed attempt))) fun _ =>
      if attempt < maxRetries then
        Proc.bind (Proc.emit (Event.logPrintf LogMsg.retrying)) fun _ =>
        Proc.bind (Proc.emit (Event.sleep retryDelay)) fun _ =>
        fetchAttempts env url more
      else Proc.fatalf LogMsg.retriesExhausted
    | some htmlContent =>
      Proc.bind (extractData env.parse htmlContent selCoords) fun coords =>
      Proc.bind (extractData env.parse htmlContent selWind) fun windInfo =>
      Proc.bind (extractData env.parse htmlContent selPm) fun pm =>
      Proc.pure (coords, windInfo, pm)

/-- The function `fetchData` of `main.go`: the loop
`for attempt := 1; attempt <= maxRetries; attempt++`. -/
def fetchData (env : Env) (url : String) : Proc (String × String × String) :=
  fetchAttempts env url (List.range' 1 maxRetries)

/-! ## One time point (`processTime`) -/

/-- The function `saveData` of `main.go`: one `INSERT`; returns whether the
error is nil. -/
def saveData (env : Env) (row : Row) : Proc Bool :=
  ([Event.saveData row], Res.ret (env.exec row))

/-- The function `processTime` of `main.go`. -/
def processTime (env : Env) (t : Int) : Proc Unit :=
  Proc.bind (fetchData env (env.url t "pm1")) fun r1 =>
  let coords := r1.1
  let windInfo := r1.2.1
  let pm1 := r1.2.2
  if coords = "" ∨ windInfo = "" ∨ pm1 = "" then
    Proc.emit (Event.logPrintf (LogMsg.missing "PM1"))
  else
    Proc.bind (fetchData env (env.url t "pm2.5")) fun r2 =>
    let pm25 := r2.2.2
    if pm25 = "" then Proc.emit (Event.logPrintf (LogMsg.missing "PM2.5"))
    else
      Proc.bind (fetchData env (env.url t "pm10")) fun r3 =>
      let pm10 := r3.2.2
      if pm10 = "" then Proc.emit (Event.logPrintf (LogMsg.missing "PM10"))
      else
        match extractWindData windInfo with
        | none => Proc.panic
        | some (direction, speed) =>
          let row : Row := ⟨t, coords, direction, speed, pm1, pm25, pm10⟩
          Proc.bind (saveData env row) fun ok =>
          if ok then Proc.emit (Event.printSample row)
          else Proc.fatalf LogMsg.saveFailed

/-- The rows handed to `saveData` in a run, in order. -/
def savedRows : List Event → List Row
  | [] => []
  | Event.saveData row :: es => row :: savedRows es
  | _ :: es => savedRows es

/-- The render attempts of a run, in order. -/
def renderAttempts : List Event → List Nat
  | [] => []
  | Event.render _ attempt :: es => attempt :: renderAttempts es
  | _ :: es => renderAttempts es

/-! ## The hourly loop and the scheduler of `main` -/

/-- The constant `time.Hour`, in nanoseconds. Instants are integers counting
nanoseconds. -/
def hour : Int := 3600 * 1000000000

/-- The constant `maxParallelRequests` of `main.go`. -/
def maxParallelRequests : Nat := 1

/-- The loop `for t := start; t.Before(end); t = t.Add(time.Hour)` from its
current `t`: the time points it hands to goroutines, in order. -/
def dispatchLoop (end_ : Int) (t : Int) : List Int :=
  if t < end_ then t :: dispatchLoop end_ (t + hour) else []
termination_by (end_ - t).toNat
decreasing_by
  simp only [hour]
  omega

/-- The time points dispatched by `main` for a window. -/
def timePoints (start end_ : Int) : List Int := dispatchLoop end_ start

/-- The effects of the tasks of `main` run one after the other, which is the
only order the semaphore admits when `maxParallelRequests` is 1; a fatal exit
or a panic of one task ends the process. -/
def runSequential (env : Env) : List Int → Proc Unit
  | [] => Proc.pure ()
  | t :: ts => Proc.bind (processTime env t) fun _ => runSequential env ts

/-- The run of `main` over a window, one task at a time. -/
def mainRun (env : Env) (start end_ : Int) : Proc Unit :=
  runSequential env (timePoints start end_)

/-- Where the main goroutine stands: at the loop head, after `wg.Add(1)` for
`t`, after the send on `sem` for `t`, in `wg.Wait()`, or past it. -/
inductive MainPhase where
  | loopHead
  | added (t : Int)
  | acquired (t : Int)
  | waiting
  | exited
deriving DecidableEq, Repr

/-- A state of the scheduler: the time points still to dispatch, the phase of
the main goroutine, the tasks inside `processTime`, the tasks that left it and
have not yet run the deferred receive on `sem`, the tasks that released their
slot and have not yet run the deferred `wg.Done()`, the number of items in the
channel `sem` and the wait-group counter. -/
structure Sched where
  pending : List Int
  phase : MainPhase
  running : List Int
  releasing : List Int
  finishing : List Int
  sem : Nat
  wg : Nat
deriving DecidableEq, Repr

/-- The atomic steps of `main` and of its goroutines. -/
inductive Action where
  | next
  | acquire
  | spawn
  | finish (t : Int)
  | release (t : Int)
  | done (t : Int)
  | wait
  | exit
deriving DecidableEq, Repr

/-- The state before the loop. -/
def Sched.init (pts : List Int) : Sched :=
  ⟨pts, MainPhase.loopHead, [], [], [], 0, 0⟩

/-- One step with a channel of capacity `cap`; `none` when the action is not
enabled (a blocked send or receive, a task not in that phase). -/
def step (cap : Nat) (s : Sched) : Action → Option Sched
  | Action.next =>
    match s.phase, s.pending with
    | MainPhase.loopHead, t :: ts =>
      some { s with pending := ts, phase := MainPhase.added t, wg := s.wg + 1 }
    | _, _ => none
  | Action.acquire =>
    match s.phase with
    | MainPhase.added t =>
      if s.sem < cap then some { s with phase := MainPhase.acquired t, sem := s.sem + 1 }
      else none
    | _ => none
  | Action.spawn =>
    match s.phase with
    | MainPhase.acquired t =>
      some { s with phase := MainPhase.loopHead, running := t :: s.running }
    | _ => none
  | Action.finish t =>
    if t ∈ s.running then
      some { s with running := s.running.erase t, releasing := t :: s.releasing }
    else none
  | Action.release t =>
    if t ∈ s.releasing ∧ 0 < s.sem then
      some { s with releasing := s.releasing.erase t, finishing := t :: s.finishing,
                    sem := s.sem - 1 }
    else none
  | Action.done t =>
    if t ∈ s.finishing ∧ 0 < s.wg then
      some { s with finishing := s.finishing.erase t, wg := s.wg - 1 }
    else none
  | Action.wait =>
    match s.phase, s.pending with
    | MainPhase.loopHead, [] => some { s with phase := MainPhase.waiting }
    | _, _ => none
  | Action.exit =>
    match s.phase with
    | MainPhase.waiting => if s.wg = 0 then some { s with phase := MainPhase.exited } else none
    | _ => none

/-- A sequence of steps from a state. -/
def runSteps (cap : Nat) : Sched → List Action → Option Sched
  | s, [] => some s
  | s, a :: as =>
    match step cap s a with
    | none => none
    | some s1 => runSteps cap s1 as

/-- The states `main` can reach over the time points `pts`. -/
def Reachable (cap : Nat) (pts : List Int) (s : Sched) : Prop :=
  ∃ acts, runSteps cap (Sched.init pts) acts = some s

/-- The number of tasks simultaneously inside `processTime`. -/
def inFlight (s : Sched) : Nat := s.running.length

/-! ## Notions used in the statements: gate invariant and round count -/

/-- Slots held: one for a send that went through before the goroutine starts,
one per task in or just after `processTime`. -/
def slotsHeld (s : Sched) : Nat :=
  (match s.phase with
    | MainPhase.acquired _ => 1
    | _ => 0) + s.running.length + s.releasing.length

/-- The invariant of the gate: the channel holds one item per slot holder and
never more than its capacity. -/
def GateInv (cap : Nat) (s : Sched) : Prop :=
  s.sem = slotsHeld s ∧ s.sem ≤ cap

/-- The number of rounds of the loop over a window: the hours of the window,
rounded up, and none for an empty window. -/
def roundCount (start end_ : Int) : Nat :=
  if start < end_ then (⌈((end_ - start : Int) : ℚ) / ((hour : Int) : ℚ)⌉).toNat else 0

/-! ## Wind parser: what the tokens are read as -/

/-- Value of a string of decimal digits, most significant first. -/
def decimalValue (ds : List Char) : Nat :=
  Nat.ofDigits 10 (ds.reverse.map (fun c => c.toNat - '0'.toNat))

/-- The longest leading run of decimal digits of a text, as a number; `none`
when the text does not start with a digit. -/
def leadingNat (l : List Char) : Option Nat :=
  if l.takeWhile Char.isDigit = [] then none else some (decimalValue (l.takeWhile Char.isDigit))

/-- The longest leading optionally-signed decimal integer of a token; `none`
when the token has no such leading integer. -/
def leadingInt : List Char → Option Int
  | [] => none
  | c :: rest =>
    if c = '-' then (leadingNat rest).map (fun v => -(v : Int))
    else if c = '+' then (leadingNat rest).map (fun v => (v : Int))
    else (leadingNat (c :: rest)).map (fun v => (v : Int))

/-- A token without its sign character, when it starts with one. -/
def unsignedPart : List Char → List Char
  | [] => []
  | c :: rest => if c = '-' ∨ c = '+' then rest else c :: rest

/-- A token that is, as a whole, an optionally-signed decimal integer, and its
value. -/
def decimalInt (tok : List Char) : Option Int :=
  if unsignedPart tok ≠ [] ∧ (unsignedPart tok).all Char.isDigit = true then leadingInt tok
  else none

/-- Whether an integer is a value of Go's 64-bit `int`. -/
def fitsInt (v : Int) : Bool := -(2 ^ 63) ≤ v && v ≤ 2 ^ 63 - 1

/-- The value a token is read as according to its leading integer: that
integer when it is a value of `int`, and 0 otherwise. -/
def scannedValue (tok : List Char) : Int :=
  match leadingInt tok with
  | some v => if fitsInt v then v else 0
  | none => 0

/-! ## Fetch with retry: pages and effects -/

/-- The triple of fields `fetchData` extracts from a parsed page. -/
def pageFields (doc : Node) : String × String × String :=
  (selectionText (find doc selCoords), selectionText (find doc selWind),
    selectionText (find doc selPm))

/-- The effects of one failed attempt that is followed by a retry. -/
def failedAttempt (url : String) (attempt : Nat) : List Event :=
  [Event.render url attempt, Event.logPrintf (LogMsg.attemptFailed attempt),
    Event.logPrintf LogMsg.retrying, Event.sleep retryDelay]

/-- The sleeps of a run, in order. -/
def sleeps : List Event → List Int
  | [] => []
  | Event.sleep d :: es => d :: sleeps es
  | _ :: es => sleeps es

/-! ## Stub collaborators -/

/-- A rendered page that shows the given coordinates, wind descriptor and
particulate reading in the three places `fetchData` looks at. -/
def stubPage (coords wind pm : String) : Node :=
  .mk .documentNode "" [] [
    .mk .elementNode "html" [] [
      .mk .elementNode "head" [] [],
      .mk .elementNode "body" [] [
        .mk .elementNode "div" [⟨"data-name", "spotlight-coords"⟩] [.mk .textNode coords [] []],
        .mk .elementNode "div" [⟨"data-name", "spotlight-a"⟩] [.mk .textNode wind [] []],
        .mk .elementNode "div" [⟨"data-name", "spotlight-b"⟩] [
          .mk .elementNode "div" [⟨"aria-label", "PM"⟩] [.mk .textNode pm [] []]]]]]

/-- A renderer stub that returns the same markup for every address at every
attempt, with a store that accepts every row. -/
def stubEnv (coords wind pm : String) : Env where
  url := fun _ overlay => overlay
  render := fun _ _ => some "page"
  parse := fun _ => some (stubPage coords wind pm)
  exec := fun _ => true

/-- A renderer stub that fails at the first `failures` attempts for an address
and then returns fixed markup. -/
def flakyEnv (failures : Nat) (coords wind pm : String) : Env where
  url := fun _ overlay => overlay
  render := fun _ attempt => if attempt ≤ failures then none else some "page"
  parse := fun _ => some (stubPage coords wind pm)
  exec := fun _ => true

/-! ## Field extractor: what `extractData` returns -/

mutual
/-- The nodes of the subtree at a node in document order, each with its
ancestors (nearest first). -/
def subtree (ancs : List Node) : Node → List (List Node × Node)
  | .mk ty d at_ ch => (ancs, Node.mk ty d at_ ch) :: subtrees (Node.mk ty d at_ ch :: ancs) ch
/-- The nodes of the subtrees at a list of siblings, in document order. -/
def subtrees (ancs : List Node) : List Node → List (List Node × Node)
  | [] => []
  | c :: cs => subtree ancs c ++ subtrees ancs cs
end

/-- The nodes of a list of positioned nodes that a matcher accepts. -/
def matchesIn (m : List Node → Node → Bool) (l : List (List Node × Node)) : List Node :=
  (l.filter (fun p => m p.1 p.2)).map Prod.snd

/-- The elements of a document that match a selector, in document order. -/
def matchingElements (root : Node) (sel : Selector) : List Node :=
  matchesIn sel.matchNode (subtrees [root] root.children)

/-- Concatenation of a list of strings, in order. -/
def concatStrings : List String → String
  | [] => ""
  | s :: ss => s ++ concatStrings ss

/-- The data of the text nodes of a list of positioned nodes. -/
def textData (l : List (List Node × Node)) : List String :=
  (l.filter (fun p => p.2.type == NodeType.textNode)).map (fun p => p.2.data)

/-- The text content of a node: the data of the text nodes of its subtree,
concatenated in document order. -/
def textContent (n : Node) : String := concatStrings (textData (subtree [] n))

/-- The text the specification describes: the text content of the first
element that matches, or the empty string when none does. -/
def firstMatchText (root : Node) (sel : Selector) : String :=
  match matchingElements root sel with
  | [] => ""
  | e :: _ => textContent e

mutual
/-- Below the root only elements have children. -/
def wellFormedNode : Node → Bool
  | .mk ty _ _ ch => (ty == NodeType.elementNode || ch.isEmpty) && wellFormedNodes ch
/-- Every node of a list of siblings is well formed. -/
def wellFormedNodes : List Node → Bool
  | [] => true
  | c :: cs => wellFormedNode c && wellFormedNodes cs
end

/-- A parsed document in which only elements (and the root) have children. -/
def wellFormedDoc (root : Node) : Bool := wellFormedNodes root.children

/-- A page whose particulate box holds two labelled parts, the number and the
unit. -/
def twoPartPage : Node :=
  .mk .documentNode "" [] [
    .mk .elementNode "html" [] [
      .mk .elementNode "body" [] [
        .mk .elementNode "div" [⟨"data-name", "spotlight-b"⟩] [
          .mk .elementNode "div" [⟨"aria-label", "5 µg/m³"⟩] [.mk .textNode "5" [] []],
          .mk .elementNode "div" [⟨"aria-label", "unit"⟩] [.mk .textNode "µg/m³" [] []]]]]]

/-! Theorems -/

/-! ## Scheduler: the admission gate -/

theorem gateInv_init (cap : Nat) (pts : List Int) : GateInv cap (Sched.init pts) := by
  simp [GateInv, slotsHeld, Sched.init]

theorem gateInv_step (cap : Nat) (s s1 : Sched) (a : Action)
    (hinv : GateInv cap s) (hstep : step cap s a = some s1) : GateInv cap s1 := by
  obtain ⟨hsem, hcap⟩ := hinv
  cases a with
  | next =>
    simp only [step] at hstep
    split at hstep
    · rename_i t ts hph hpend
      cases hstep
      simp_all [GateInv, slotsHeld]
    · cases hstep
  | acquire =>
    simp only [step] at hstep
    split at hstep
    · rename_i t hph
      split at hstep
      · rename_i hlt
        cases hstep
        simp_all [GateInv, slotsHeld]
        omega
      · cases hstep
    · cases hstep
  | spawn =>
    simp only [step] at hstep
    split at hstep
    · rename_i t hph
      cases hstep
      simp_all [GateInv, slotsHeld]
      omega
    · cases hstep
  | finish t =>
    simp only [step] at hstep
    split at hstep
    · rename_i hmem
      cases hstep
      have hlen := List.length_erase_of_mem hmem
      have hpos := List.length_pos_of_mem hmem
      simp_all [GateInv, slotsHeld]
      omega
    · cases hstep
  | release t =>
    simp only [step] at hstep
    split at hstep
    · rename_i hmem
      cases hstep
      have hlen := List.length_erase_of_mem hmem.1
      have hpos := List.length_pos_of_mem hmem.1
      simp_all [GateInv, slotsHeld]
      omega
    · cases hstep
  | done t =>
    simp only [step] at hstep
    split at hstep
    · cases hstep
      simp_all [GateInv, slotsHeld]
    · cases hstep
  | wait =>
    simp only [step] at hstep
    split at hstep
    · rename_i hph hpend
      cases hstep
      simp_all [GateInv, slotsHeld]
    · cases hstep
  | exit =>
    simp only [step] at hstep
    split at hstep
    · split at hstep
      · cases hstep
        simp_all [GateInv, slotsHeld]
      · cases hstep
    · cases hstep

theorem gateInv_runSteps (cap : Nat) (acts : List Action) :
    ∀ s s1 : Sched, GateInv cap s → runSteps cap s acts = some s1 → GateInv cap s1 := by
  induction acts with
  | nil =>
    intro s s1 hinv hrun
    simp only [runSteps, Option.some.injEq] at hrun
    exact hrun ▸ hinv
  | cons a as ih =>
    intro s s1 hinv hrun
    simp only [runSteps] at hrun
    split at hrun
    · cases hrun
    · rename_i s2 hs2
      exact ih s2 s1 (gateInv_step cap s s2 a hinv hs2) hrun

theorem inFlight_le_of_gateInv (cap : Nat) (s : Sched) (h : GateInv cap s) :
    inFlight s + s.releasing.length ≤ cap := by
  obtain ⟨hsem, hcap⟩ := h
  simp only [slotsHeld] at hsem
  simp only [inFlight]
  omega

/-- C8: in every state the scheduler reaches with a gate of capacity `cap`, the
number of tasks inside `processTime` (even counted together with those that
have not yet given their slot back) is at most `cap`; with the capacity
`maxParallelRequests` of the program it is at most 1. -/
theorem C8_inFlight_le_capacity :
    (∀ (cap : Nat) (pts : List Int) (s : Sched), Reachable cap pts s →
        inFlight s ≤ cap ∧ inFlight s + s.releasing.length ≤ cap) ∧
    (∀ (pts : List Int) (s : Sched), Reachable maxParallelRequests pts s → inFlight s ≤ 1) := by
  have key : ∀ (cap : Nat) (pts : List Int) (s : Sched), Reachable cap pts s →
      inFlight s + s.releasing.length ≤ cap := by
    intro cap pts s hreach
    obtain ⟨acts, hacts⟩ := hreach
    exact inFlight_le_of_gateInv cap s
      (gateInv_runSteps cap acts _ s (gateInv_init cap pts) hacts)
  refine ⟨fun cap pts s h => ⟨?_, key cap pts s h⟩, fun pts s h => ?_⟩
  · have := key cap pts s h
    omega
  · have := key maxParallelRequests pts s h
    simp only [maxParallelRequests] at this
    omega

/-- C8 at a concrete schedule: after the first task of a three-point window is
started, one task is in flight and the bound holds. -/
theorem C8_inFlight_le_capacity_witness :
    Reachable maxParallelRequests [0, 1, 2]
        ⟨[1, 2], MainPhase.loopHead, [0], [], [], 1, 1⟩ ∧
      inFlight (⟨[1, 2], MainPhase.loopHead, [0], [], [], 1, 1⟩ : Sched) ≤ 1 :=
  ⟨⟨[Action.next, Action.acquire, Action.spawn], by decide⟩,
   C8_inFlight_le_capacity.2 [0, 1, 2] ⟨[1, 2], MainPhase.loopHead, [0], [], [], 1, 1⟩
     ⟨[Action.next, Action.acquire, Action.spawn], by decide⟩⟩

/-! ## The hourly loop -/

theorem hour_pos : 0 < hour := by decide

theorem dispatchLoop_of_le (end_ t : Int) (h : end_ ≤ t) : dispatchLoop end_ t = [] := by
  rw [dispatchLoop, if_neg (by omega)]

theorem dispatchLoop_of_lt (end_ t : Int) (h : t < end_) :
    dispatchLoop end_ t = t :: dispatchLoop end_ (t + hour) := by
  rw [dispatchLoop, if_pos h]

/-- The loop started at `t` makes exactly `n` rounds when `n` hours reach the
end of the window and `n - 1` hours do not. -/
theorem dispatchLoop_eq_map (end_ : Int) :
    ∀ (n : Nat) (t : Int), end_ ≤ t + (n : Int) * hour →
      (∀ k : Nat, k < n → t + (k : Int) * hour < end_) →
      dispatchLoop end_ t = (List.range n).map (fun (k : Nat) => t + (k : Int) * hour) := by
  intro n
  induction n with
  | zero =>
    intro t hle _
    simp only [Nat.cast_zero, zero_mul, add_zero] at hle
    simp [dispatchLoop_of_le end_ t hle]
  | succ n ih =>
    intro t hle hlt
    have ht : t < end_ := by simpa using hlt 0 (Nat.succ_pos n)
    rw [dispatchLoop_of_lt end_ t ht, ih (t + hour)]
    · rw [List.range_succ_eq_map, List.map_cons, List.map_map]
      simp only [Nat.cast_zero, zero_mul, add_zero, List.cons.injEq, true_and]
      apply List.map_congr_left
      intro k _
      simp only [Function.comp_apply, Nat.cast_succ]
      ring
    · have : t + ((n + 1 : Nat) : Int) * hour = t + hour + (n : Int) * hour := by
        push_cast
        ring
      omega
    · intro k hk
      have h1 := hlt (k + 1) (Nat.succ_lt_succ hk)
      have : t + ((k + 1 : Nat) : Int) * hour = t + hour + (k : Int) * hour := by
        push_cast
        ring
      omega

theorem roundCount_spec (start end_ : Int) :
    end_ ≤ start + (roundCount start end_ : Int) * hour ∧
    ∀ k : Nat, k < roundCount start end_ → start + (k : Int) * hour < end_ := by
  have hq : (0 : ℚ) < ((hour : Int) : ℚ) := by exact_mod_cast hour_pos
  unfold roundCount
  split
  · rename_i hlt
    set c : Int := ⌈((end_ - start : Int) : ℚ) / ((hour : Int) : ℚ)⌉ with hc
    have hcpos : 0 < c := by
      rw [hc, Int.ceil_pos]
      apply div_pos _ hq
      exact_mod_cast (by omega : 0 < end_ - start)
    have hcn : ((c.toNat : Nat) : Int) = c := Int.toNat_of_nonneg hcpos.le
    constructor
    · rw [hcn]
      have h1 : ((end_ - start : Int) : ℚ) / ((hour : Int) : ℚ) ≤ (c : ℚ) := Int.le_ceil _
      rw [div_le_iff₀ hq] at h1
      have h2 : end_ - start ≤ c * hour := by exact_mod_cast h1
      omega
    · intro k hk
      have hkc : (k : Int) < c := by omega
      have h1 : ((k : Int) : ℚ) < ((end_ - start : Int) : ℚ) / ((hour : Int) : ℚ) :=
        Int.lt_ceil.mp hkc
      rw [lt_div_iff₀ hq] at h1
      have h2 : (k : Int) * hour < end_ - start := by exact_mod_cast h1
      omega
  · rename_i hge
    constructor
    · simp only [Nat.cast_zero, zero_mul, add_zero]
      omega
    · intro k hk
      omega

theorem timePoints_eq_map (start end_ : Int) :
    timePoints start end_ =
      (List.range (roundCount start end_)).map (fun (k : Nat) => start + (k : Int) * hour) := by
  obtain ⟨h1, h2⟩ := roundCount_spec start end_
  exact dispatchLoop_eq_map end_ _ start h1 h2

/-- C1: the time points `main` dispatches over a window are `start + k` hours
for `k = 0, .., n - 1` in that order, with `n` the hours of the window rounded
up when `start < end` and `n = 0` otherwise; consecutive points are exactly one
hour apart and every point lies in the half-open window. -/
theorem C1_timePoints_hourly (start end_ : Int) :
    timePoints start end_ =
        (List.range (if start < end_ then
            (⌈((end_ - start : Int) : ℚ) / ((hour : Int) : ℚ)⌉).toNat else 0)).map
          (fun (k : Nat) => start + (k : Int) * hour) ∧
    (timePoints start end_).length =
        (if start < end_ then (⌈((end_ - start : Int) : ℚ) / ((hour : Int) : ℚ)⌉).toNat else 0) ∧
    (∀ (i : Nat) (t : Int), (timePoints start end_)[i]? = some t →
        i + 1 < (timePoints start end_).length →
        (timePoints start end_)[i + 1]? = some (t + hour) ∧ t < t + hour) ∧
    (∀ t ∈ timePoints start end_, start ≤ t ∧ t < end_) := by
  have heq := timePoints_eq_map start end_
  obtain ⟨h1, h2⟩ := roundCount_spec start end_
  have hlen : (timePoints start end_).length = roundCount start end_ := by
    rw [heq, List.length_map, List.length_range]
  refine ⟨heq, hlen, ?_, ?_⟩
  · intro i t hi hlt
    rw [hlen] at hlt
    rw [heq] at hi ⊢
    have hi0 : i < roundCount start end_ := by omega
    simp only [List.getElem?_map, List.getElem?_range hi0, Option.map_some',
      Option.some.injEq] at hi
    simp only [List.getElem?_map, List.getElem?_range hlt, Option.map_some',
      Option.some.injEq]
    have := hour_pos
    constructor
    · rw [← hi]
      push_cast
      ring
    · omega
  · intro t ht
    rw [heq, List.mem_map] at ht
    obtain ⟨k, hk, rfl⟩ := ht
    rw [List.mem_range] at hk
    have := h2 k hk
    have := hour_pos
    have : 0 ≤ (k : Int) * hour := mul_nonneg (Int.ofNat_nonneg k) hour_pos.le
    omega

/-! ## Wind parser -/

theorem isDigit_eq_isDecDigit (c : Char) : c.isDigit = isDecDigit c := by
  simp only [Char.isDigit, isDecDigit, Char.toNat, UInt32.le_def, Nat.ble_eq]
  rfl

theorem takeWhile_isDigit (l : List Char) :
    l.takeWhile Char.isDigit = l.takeWhile isDecDigit := by
  rw [show Char.isDigit = isDecDigit from funext isDigit_eq_isDecDigit]

theorem digitsValue_append (ds : List Char) (c : Char) :
    digitsValue (ds ++ [c]) = digitsValue ds * 10 + (c.toNat - 48) := by
  simp [digitsValue, List.foldl_append]

theorem digitsValue_eq_decimalValue (ds : List Char) : digitsValue ds = decimalValue ds := by
  induction ds using List.reverseRecOn with
  | nil => simp [digitsValue, decimalValue]
  | append_singleton ds c ih =>
    rw [digitsValue_append, ih]
    simp only [decimalValue, List.reverse_append, List.reverse_cons, List.reverse_nil,
      List.nil_append, List.singleton_append, List.map_cons, Nat.ofDigits_cons]
    have : ('0' : Char).toNat = 48 := by decide
    rw [this]
    ring

theorem fieldsLoop_tokens (s : List Char) :
    ∀ cur : Option (List Char),
      (∀ c0 ∈ cur, c0 ≠ [] ∧ ∀ c ∈ c0, isSpace c = false) →
      ∀ tok ∈ fieldsLoop s cur, tok ≠ [] ∧ ∀ c ∈ tok, isSpace c = false := by
  induction s with
  | nil =>
    intro cur hcur tok htok
    cases cur with
    | none => simp [fieldsLoop] at htok
    | some c0 =>
      simp only [fieldsLoop, List.mem_singleton] at htok
      subst htok
      exact hcur tok rfl
  | cons c cs ih =>
    intro cur hcur tok htok
    cases cur with
    | none =>
      simp only [fieldsLoop] at htok
      split at htok
      · exact ih none (by simp) tok htok
      · rename_i hc
        refine ih (some [c]) ?_ tok htok
        intro c0 hc0
        simp only [Option.mem_def, Option.some.injEq] at hc0
        subst hc0
        simpa using hc
    | some c0 =>
      simp only [fieldsLoop] at htok
      split at htok
      · rcases List.mem_cons.mp htok with h | h
        · subst h
          exact hcur tok rfl
        · exact ih none (by simp) tok h
      · rename_i hc
        refine ih (some (c0 ++ [c])) ?_ tok htok
        intro c1 hc1
        simp only [Option.mem_def, Option.some.injEq] at hc1
        subst hc1
        obtain ⟨_, h2⟩ := hcur c0 rfl
        refine ⟨by simp, ?_⟩
        intro x hx
        rcases List.mem_append.mp hx with h | h
        · exact h2 x h
        · simp only [List.mem_singleton] at h
          subst h
          simpa using hc

theorem fields_tokens (s : List Char) (tok : List Char) (h : tok ∈ fields s) :
    tok ≠ [] ∧ ∀ c ∈ tok, isSpace c = false :=
  fieldsLoop_tokens s none (by simp) tok h

theorem isSign_iff (c : Char) : isSign c = true ↔ c = '+' ∨ c = '-' := by
  simp [isSign]

theorem not_isSign_of_isDecDigit (c : Char) (h : isDecDigit c = true) : isSign c = false := by
  cases hs : isSign c with
  | false => rfl
  | true =>
    rcases (isSign_iff c).mp hs with h1 | h1 <;> subst h1 <;> simp [isDecDigit] at h

theorem parseInt_unsigned (ds : List Char) (hne : ds ≠ []) (hall : ds.all isDecDigit = true) :
    parseInt ds intBits =
      if 2 ^ 63 ≤ digitsValue ds then none else some ((digitsValue ds : Nat) : Int) := by
  cases ds with
  | nil => exact absurd rfl hne
  | cons c cs =>
    have hc : isDecDigit c = true := by
      simp only [List.all_cons, Bool.and_eq_true] at hall
      exact hall.1
    have hs : isSign c = false := not_isSign_of_isDecDigit c hc
    have hneg : (c == '-') = false := by
      simp only [isSign, Bool.or_eq_false_iff] at hs
      exact hs.2
    have hneg2 : ¬ (c = '-') := by simpa using hneg
    simp [parseInt, hs, hall, intBits, hneg2]

theorem parseInt_signed (c : Char) (ds : List Char) (hs : isSign c = true)
    (hne : ds ≠ []) (hall : ds.all isDecDigit = true) :
    parseInt (c :: ds) intBits =
      if c = '-' then
        (if 2 ^ 63 < digitsValue ds then none else some (-((digitsValue ds : Nat) : Int)))
      else (if 2 ^ 63 ≤ digitsValue ds then none else some ((digitsValue ds : Nat) : Int)) := by
  by_cases hc : c = '-'
  · subst hc
    have : ds.isEmpty = false := by simpa using hne
    simp [parseInt, isSign, hall, intBits, this]
  · have : ds.isEmpty = false := by simpa using hne
    simp [parseInt, hs, hall, intBits, this, hc]

theorem all_takeWhile_isDecDigit (l : List Char) :
    (l.takeWhile isDecDigit).all isDecDigit = true := by
  rw [List.all_eq_true]
  intro x hx
  exact List.mem_takeWhile_imp hx

theorem fitsInt_neg (n : Nat) : fitsInt (-(n : Int)) = !decide (2 ^ 63 < n) := by
  simp only [fitsInt]
  by_cases h : 2 ^ 63 < n
  · simp only [h, decide_True, Bool.not_true, Bool.and_eq_false_imp, decide_eq_true_eq,
      decide_eq_false_iff_not]
    omega
  · simp only [h, decide_False, Bool.not_false, Bool.and_eq_true, decide_eq_true_eq]
    omega

theorem fitsInt_nat (n : Nat) : fitsInt (n : Int) = !decide (2 ^ 63 ≤ n) := by
  simp only [fitsInt]
  by_cases h : 2 ^ 63 ≤ n
  · simp only [h, decide_True, Bool.not_true, Bool.and_eq_false_imp, decide_eq_true_eq,
      decide_eq_false_iff_not]
    omega
  · simp only [h, decide_False, Bool.not_false, Bool.and_eq_true, decide_eq_true_eq]
    omega

theorem leadingNat_eq (l : List Char) :
    leadingNat l =
      if l.takeWhile isDecDigit = [] then none
      else some (digitsValue (l.takeWhile isDecDigit)) := by
  simp only [leadingNat, takeWhile_isDigit, digitsValue_eq_decimalValue]

/-- Reading a token that holds no white space with `%d` into a variable that
is 0 gives the value of its leading integer when that is a value of `int`,
and leaves 0 otherwise. -/
theorem sscanfD_eq_scannedValue (tok : List Char) (h : ∀ c ∈ tok, isSpace c = false) :
    sscanfD tok 0 = scannedValue tok := by
  cases tok with
  | nil => simp [sscanfD, scanIntToken, scannedValue, leadingInt]
  | cons c cs =>
    have hc : isSpace c = false := h c (List.mem_cons_self c cs)
    have hdrop : (c :: cs).dropWhile isSpace = c :: cs := by
      simp [List.dropWhile, hc]
    by_cases hs : isSign c = true
    · -- a sign, then the digits of the rest
      by_cases hds : cs.takeWhile isDecDigit = []
      · have h1 : scanIntToken (c :: cs) = none := by
          simp [scanIntToken, hdrop, hs, hds]
        have h2 : leadingInt (c :: cs) = none := by
          rcases (isSign_iff c).mp hs with hp | hm
          · subst hp
            simp [leadingInt, leadingNat_eq, hds]
          · subst hm
            simp [leadingInt, leadingNat_eq, hds]
        simp [sscanfD, scannedValue, h1, h2]
      · have hemp : (cs.takeWhile isDecDigit).isEmpty = false := by simpa using hds
        have h1 : scanIntToken (c :: cs) = some (c :: cs.takeWhile isDecDigit) := by
          simp [scanIntToken, hdrop, hs, hemp]
        have h3 := parseInt_signed c (cs.takeWhile isDecDigit) hs hds
          (all_takeWhile_isDecDigit cs)
        rcases (isSign_iff c).mp hs with hp | hm
        · subst hp
          have h2 : leadingInt ('+' :: cs) =
              some ((digitsValue (cs.takeWhile isDecDigit) : Nat) : Int) := by
            simp [leadingInt, leadingNat_eq, hds]
          simp only [sscanfD, scannedValue, h1, h2, h3, fitsInt_nat]
          by_cases hr : 9223372036854775808 ≤ digitsValue (cs.takeWhile isDecDigit)
          · simp [hr, Nat.not_lt.mpr hr]
          · simp [hr, Nat.lt_of_not_le hr]
        · subst hm
          have h2 : leadingInt ('-' :: cs) =
              some (-((digitsValue (cs.takeWhile isDecDigit) : Nat) : Int)) := by
            simp [leadingInt, leadingNat_eq, hds]
          simp only [sscanfD, scannedValue, h1, h2, h3, fitsInt_neg]
          by_cases hr : 9223372036854775808 < digitsValue (cs.takeWhile isDecDigit)
          · simp [hr, Nat.not_le.mpr hr]
          · simp [hr, Nat.le_of_not_lt hr]
    · -- no sign: the digits of the whole token
      have hs0 : isSign c = false := by simpa using hs
      have hnp : ¬ (c = '+') := fun e => by simp [isSign, e] at hs0
      have hnm : ¬ (c = '-') := fun e => by simp [isSign, e] at hs0
      by_cases hds : (c :: cs).takeWhile isDecDigit = []
      · have hemp : ((c :: cs).takeWhile isDecDigit).isEmpty = true := by simp [hds]
        have h1 : scanIntToken (c :: cs) = none := by
          simp only [scanIntToken, hdrop, hs0]
          simp [hemp]
        have h2 : leadingInt (c :: cs) = none := by
          simp only [leadingInt, hnp, hnm, if_false, leadingNat_eq, hds]
          simp
        simp [sscanfD, scannedValue, h1, h2]
      · have hemp : ((c :: cs).takeWhile isDecDigit).isEmpty = false := by simpa using hds
        have h1 : scanIntToken (c :: cs) = some ((c :: cs).takeWhile isDecDigit) := by
          simp only [scanIntToken, hdrop, hs0]
          simp [hemp]
        have h3 := parseInt_unsigned ((c :: cs).takeWhile isDecDigit) hds
          (all_takeWhile_isDecDigit (c :: cs))
        have h2 : leadingInt (c :: cs) =
            some ((digitsValue ((c :: cs).takeWhile isDecDigit) : Nat) : Int) := by
          simp only [leadingInt, hnp, hnm, if_false, leadingNat_eq, hds]
          simp
        simp only [sscanfD, scannedValue, h1, h2, h3, fitsInt_nat]
        by_cases hr : 9223372036854775808 ≤ digitsValue ((c :: cs).takeWhile isDecDigit)
        · simp [hr, Nat.not_lt.mpr hr]
        · simp [hr, Nat.lt_of_not_le hr]

theorem extractWindData_of_tokens (w : String) (p0 p1 p2 : List Char) (rest : List (List Char))
    (h : fields w.toList = p0 :: p1 :: p2 :: rest) :
    extractWindData w = some (scannedValue p0, scannedValue p2) := by
  have h0 := (fields_tokens w.toList p0 (by rw [h]; simp)).2
  have h2 := (fields_tokens w.toList p2 (by rw [h]; simp)).2
  simp only [extractWindData, h]
  simp [sscanfD_eq_scannedValue p0 h0, sscanfD_eq_scannedValue p2 h2]

theorem extractWindData_isSome_iff (w : String) :
    (extractWindData w).isSome = true ↔ 3 ≤ (fields w.toList).length := by
  rcases hf : fields w.toList with _ | ⟨p0, _ | ⟨p1, _ | ⟨p2, rest⟩⟩⟩
  · simp only [extractWindData, hf]
    simp
  · simp only [extractWindData, hf]
    simp
  · simp only [extractWindData, hf]
    simp
  · simp only [extractWindData, hf]
    simp

theorem scannedValue_of_decimalInt (tok : List Char) (d : Int)
    (h : decimalInt tok = some d) (hfit : fitsInt d = true) : scannedValue tok = d := by
  simp only [decimalInt] at h
  split_ifs at h
  simp [scannedValue, h, hfit]

/-- C4, as the code has it: when a descriptor splits into at least three
tokens whose first token is the decimal integer `d` and whose third is the
decimal integer `s`, both values of Go's 64-bit `int`, `extractWindData`
returns `(d, s)` whatever the second token and the tokens after the third are. -/
theorem C4_extractWindData_integers (w : String) (p0 p1 p2 : List Char)
    (rest : List (List Char)) (d s : Int)
    (htok : fields w.toList = p0 :: p1 :: p2 :: rest)
    (hd : decimalInt p0 = some d) (hs : decimalInt p2 = some s)
    (hdfit : fitsInt d = true) (hsfit : fitsInt s = true) :
    extractWindData w = some (d, s) := by
  rw [extractWindData_of_tokens w p0 p1 p2 rest htok,
    scannedValue_of_decimalInt p0 d hd hdfit, scannedValue_of_decimalInt p2 s hs hsfit]

/-- C4 at the descriptor of the specification: `270 at 15` gives direction
270 and speed 15. -/
theorem C4_extractWindData_integers_witness :
    extractWindData "270 at 15" = some (270, 15) :=
  C4_extractWindData_integers "270 at 15" "270".toList "at".toList "15".toList [] 270 15
    (by decide) (by decide) (by decide) (by decide) (by decide)

/-- C4 as stated fails: the first token of `9223372036854775808 at 15` is the
decimal integer 9223372036854775808, the third is 15, and the direction
returned is 0. -/
theorem C4_counterexample :
    fields "9223372036854775808 at 15".toList =
        ["9223372036854775808".toList, "at".toList, "15".toList] ∧
    decimalInt "9223372036854775808".toList = some 9223372036854775808 ∧
    decimalInt "15".toList = some 15 ∧
    extractWindData "9223372036854775808 at 15" = some (0, 15) ∧
    extractWindData "9223372036854775808 at 15" ≠ some (9223372036854775808, 15) := by
  decide

/-! ## Fetch with retry -/

theorem bind_emit {β : Type} (e : Event) (f : Unit → Proc β) :
    Proc.bind (Proc.emit e) f = (e :: (f ()).1, (f ()).2) := rfl

theorem bind_pure {α β : Type} (a : α) (f : α → Proc β) :
    Proc.bind (Proc.pure a) f = f a := rfl

theorem bind_of_ret {α β : Type} (p : Proc α) (f : α → Proc β) (a : α) (h : p.2 = Res.ret a) :
    Proc.bind p f = (p.1 ++ (f a).1, (f a).2) := by
  simp [Proc.bind, h]

theorem bind_of_fatal {α β : Type} (p : Proc α) (f : α → Proc β) (h : p.2 = Res.fatal) :
    Proc.bind p f = (p.1, Res.fatal) := by
  simp [Proc.bind, h]

theorem fetchAttempts_success (env : Env) (url : String) (attempt : Nat) (more : List Nat)
    (htmlContent : String) (doc : Node)
    (hr : env.render url attempt = some htmlContent) (hp : env.parse htmlContent = some doc) :
    fetchAttempts env url (attempt :: more) =
      ([Event.render url attempt], Res.ret (pageFields doc)) := by
  simp only [fetchAttempts, hr, extractData, hp, bind_emit, bind_pure, pageFields]
  rfl

theorem fetchAttempts_retry (env : Env) (url : String) (attempt : Nat) (more : List Nat)
    (hr : env.render url attempt = none) (hlt : attempt < maxRetries) :
    fetchAttempts env url (attempt :: more) =
      (failedAttempt url attempt ++ (fetchAttempts env url more).1,
        (fetchAttempts env url more).2) := by
  simp [fetchAttempts, hr, hlt, bind_emit, failedAttempt]

theorem fetchAttempts_exhausted (env : Env) (url : String) (attempt : Nat) (more : List Nat)
    (hr : env.render url attempt = none) (hlt : ¬ attempt < maxRetries) :
    fetchAttempts env url (attempt :: more) =
      ([Event.render url attempt, Event.logPrintf (LogMsg.attemptFailed attempt),
          Event.logFatalf LogMsg.retriesExhausted], Res.fatal) := by
  simp [fetchAttempts, hr, hlt, bind_emit, Proc.fatalf]

theorem fetchData_unfold (env : Env) (url : String) :
    fetchData env url = fetchAttempts env url [1, 2, 3] := rfl

/-- C5: when the first render that succeeds is attempt `k` of the first three
and its page parses, `fetchData` makes the attempts `1, .., k` in order, each
failed one followed by the retry delay, stops there and returns the fields
extracted from that page; so two failures then a success end with success on
the third attempt, and a page rendered at the first attempt whose markup has no
match for a field gives that field empty after that single attempt. -/
theorem C5_fetchData_first_success :
    (∀ (env : Env) (url : String) (k : Nat) (htmlContent : String) (doc : Node),
      1 ≤ k → k ≤ 3 →
      (∀ j, 1 ≤ j → j < k → env.render url j = none) →
      env.render url k = some htmlContent →
      env.parse htmlContent = some doc →
      fetchData env url =
          (((List.range' 1 (k - 1)).map (failedAttempt url)).flatten ++ [Event.render url k],
            Res.ret (pageFields doc)) ∧
      renderAttempts (fetchData env url).1 = List.range' 1 k ∧
      (renderAttempts (fetchData env url).1).length ≤ 3) ∧
    (∀ (env : Env) (url : String) (htmlContent : String) (doc : Node),
      env.render url 1 = some htmlContent →
      env.parse htmlContent = some doc →
      find doc selPm = [] →
      (fetchData env url).2 =
          Res.ret (selectionText (find doc selCoords), selectionText (find doc selWind), "") ∧
      renderAttempts (fetchData env url).1 = [1]) := by
  constructor
  · intro env url k htmlContent doc hk1 hk3 hfail hok hparse
    have hcases : k = 1 ∨ k = 2 ∨ k = 3 := by omega
    rcases hcases with rfl | rfl | rfl
    · rw [fetchData_unfold, fetchAttempts_success env url 1 _ htmlContent doc hok hparse]
      simp [renderAttempts, List.range']
    · have h1 := hfail 1 (by omega) (by omega)
      rw [fetchData_unfold, fetchAttempts_retry env url 1 _ h1 (by decide),
        fetchAttempts_success env url 2 _ htmlContent doc hok hparse]
      simp [renderAttempts, List.range', failedAttempt]
    · have h1 := hfail 1 (by omega) (by omega)
      have h2 := hfail 2 (by omega) (by omega)
      rw [fetchData_unfold, fetchAttempts_retry env url 1 _ h1 (by decide),
        fetchAttempts_retry env url 2 _ h2 (by decide),
        fetchAttempts_success env url 3 _ htmlContent doc hok hparse]
      simp [renderAttempts, List.range', failedAttempt]
  · intro env url htmlContent doc hok hparse hnone
    rw [fetchData_unfold, fetchAttempts_success env url 1 _ htmlContent doc hok hparse]
    simp [renderAttempts, pageFields, hnone, selectionText]

/-- C6: when every render fails, `fetchData` makes exactly three attempts,
sleeps the 5-second retry delay after the first and after the second failure
and not after the third, and then exits through `log.Fatalf` without returning
a result. -/
theorem C6_fetchData_exhausted (env : Env) (url : String)
    (hfail : ∀ j, 1 ≤ j → j ≤ 3 → env.render url j = none) :
    fetchData env url =
        ([Event.render url 1, Event.logPrintf (LogMsg.attemptFailed 1),
            Event.logPrintf LogMsg.retrying, Event.sleep retryDelay,
          Event.render url 2, Event.logPrintf (LogMsg.attemptFailed 2),
            Event.logPrintf LogMsg.retrying, Event.sleep retryDelay,
          Event.render url 3, Event.logPrintf (LogMsg.attemptFailed 3),
            Event.logFatalf LogMsg.retriesExhausted], Res.fatal) ∧
    renderAttempts (fetchData env url).1 = [1, 2, 3] ∧
    sleeps (fetchData env url).1 = [5 * 1000000000, 5 * 1000000000] ∧
    (∀ r, (fetchData env url).2 ≠ Res.ret r) := by
  have h1 := hfail 1 (by omega) (by omega)
  have h2 := hfail 2 (by omega) (by omega)
  have h3 := hfail 3 (by omega) (by omega)
  have heq : fetchData env url =
        ([Event.render url 1, Event.logPrintf (LogMsg.attemptFailed 1),
            Event.logPrintf LogMsg.retrying, Event.sleep retryDelay,
          Event.render url 2, Event.logPrintf (LogMsg.attemptFailed 2),
            Event.logPrintf LogMsg.retrying, Event.sleep retryDelay,
          Event.render url 3, Event.logPrintf (LogMsg.attemptFailed 3),
            Event.logFatalf LogMsg.retriesExhausted], Res.fatal) := by
    rw [fetchData_unfold, fetchAttempts_retry env url 1 _ h1 (by decide),
      fetchAttempts_retry env url 2 _ h2 (by decide),
      fetchAttempts_exhausted env url 3 _ h3 (by decide)]
    simp [failedAttempt]
  refine ⟨heq, ?_, ?_, ?_⟩
  · rw [heq]
    simp [renderAttempts]
  · rw [heq]
    simp [sleeps, retryDelay]
  · intro r
    rw [heq]
    simp

theorem pageFields_stubPage (coords wind pm : String) :
    pageFields (stubPage coords wind pm) = (coords, wind, pm) := by
  simp [pageFields, stubPage, find, findInChildren, matchAllInto, matchAllChildren,
    selectionText, writeText, writeTextList, Selector.matchNode, Compound.matchNode,
    AttrTest.holds, anyAncestor, selCoords, selWind, selPm, Node.type, Node.data, Node.attr,
    Node.children]

/-! ## One time point -/

theorem savedRows_append (a b : List Event) : savedRows (a ++ b) = savedRows a ++ savedRows b := by
  induction a with
  | nil => rfl
  | cons e es ih => cases e <;> simp [savedRows, ih]

theorem fetchAttempts_parseFailed (env : Env) (url : String) (attempt : Nat) (more : List Nat)
    (htmlContent : String)
    (hr : env.render url attempt = some htmlContent) (hp : env.parse htmlContent = none) :
    fetchAttempts env url (attempt :: more) =
      ([Event.render url attempt, Event.logFatalf LogMsg.parseFailed], Res.fatal) := by
  simp only [fetchAttempts, hr, extractData, hp, bind_emit]
  rfl

theorem savedRows_fetchAttempts (env : Env) (url : String) (l : List Nat) :
    savedRows (fetchAttempts env url l).1 = [] := by
  induction l with
  | nil => rfl
  | cons attempt more ih =>
    cases hr : env.render url attempt with
    | none =>
      by_cases hlt : attempt < maxRetries
      · rw [fetchAttempts_retry env url attempt more hr hlt]
        simp [savedRows_append, ih, failedAttempt, savedRows]
      · rw [fetchAttempts_exhausted env url attempt more hr hlt]
        simp [savedRows]
    | some htmlContent =>
      cases hp : env.parse htmlContent with
      | none =>
        rw [fetchAttempts_parseFailed env url attempt more htmlContent hr hp]
        simp [savedRows]
      | some doc =>
        rw [fetchAttempts_success env url attempt more htmlContent doc hr hp]
        simp [savedRows]

theorem savedRows_fetchData (env : Env) (url : String) :
    savedRows (fetchData env url).1 = [] :=
  savedRows_fetchAttempts env url _

theorem processTime_skip_pm1 (env : Env) (t : Int) (c w p1 : String)
    (h1 : (fetchData env (env.url t "pm1")).2 = Res.ret (c, w, p1))
    (hempty : c = "" ∨ w = "" ∨ p1 = "") :
    processTime env t =
      ((fetchData env (env.url t "pm1")).1 ++ [Event.logPrintf (LogMsg.missing "PM1")],
        Res.ret ()) := by
  rw [processTime, bind_of_ret _ _ _ h1]
  simp only [if_pos hempty]
  rfl

theorem processTime_skip_pm25 (env : Env) (t : Int) (c w p1 c2 w2 : String)
    (h1 : (fetchData env (env.url t "pm1")).2 = Res.ret (c, w, p1))
    (h2 : (fetchData env (env.url t "pm2.5")).2 = Res.ret (c2, w2, ""))
    (hfull : ¬ (c = "" ∨ w = "" ∨ p1 = "")) :
    processTime env t =
      ((fetchData env (env.url t "pm1")).1 ++ ((fetchData env (env.url t "pm2.5")).1 ++
        [Event.logPrintf (LogMsg.missing "PM2.5")]), Res.ret ()) := by
  rw [processTime, bind_of_ret _ _ _ h1]
  simp only [if_neg hfull]
  rw [bind_of_ret _ _ _ h2]
  simp only [if_true]
  rfl

theorem processTime_skip_pm10 (env : Env) (t : Int) (c w p1 c2 w2 p25 c3 w3 : String)
    (h1 : (fetchData env (env.url t "pm1")).2 = Res.ret (c, w, p1))
    (h2 : (fetchData env (env.url t "pm2.5")).2 = Res.ret (c2, w2, p25))
    (h3 : (fetchData env (env.url t "pm10")).2 = Res.ret (c3, w3, ""))
    (hfull : ¬ (c = "" ∨ w = "" ∨ p1 = "")) (h25 : p25 ≠ "") :
    processTime env t =
      ((fetchData env (env.url t "pm1")).1 ++ ((fetchData env (env.url t "pm2.5")).1 ++
        ((fetchData env (env.url t "pm10")).1 ++
          [Event.logPrintf (LogMsg.missing "PM10")])), Res.ret ()) := by
  rw [processTime, bind_of_ret _ _ _ h1]
  simp only [if_neg hfull]
  rw [bind_of_ret _ _ _ h2]
  simp only [if_neg h25]
  rw [bind_of_ret _ _ _ h3]
  simp only [if_true]
  rfl

theorem processTime_panic (env : Env) (t : Int) (c w p1 c2 w2 p25 c3 w3 p10 : String)
    (h1 : (fetchData env (env.url t "pm1")).2 = Res.ret (c, w, p1))
    (h2 : (fetchData env (env.url t "pm2.5")).2 = Res.ret (c2, w2, p25))
    (h3 : (fetchData env (env.url t "pm10")).2 = Res.ret (c3, w3, p10))
    (hfull : ¬ (c = "" ∨ w = "" ∨ p1 = "")) (h25 : p25 ≠ "") (h10 : p10 ≠ "")
    (hwind : extractWindData w = none) :
    processTime env t =
      ((fetchData env (env.url t "pm1")).1 ++ ((fetchData env (env.url t "pm2.5")).1 ++
        ((fetchData env (env.url t "pm10")).1 ++ [])), Res.panic) := by
  rw [processTime, bind_of_ret _ _ _ h1]
  simp only [if_neg hfull]
  rw [bind_of_ret _ _ _ h2]
  simp only [if_neg h25]
  rw [bind_of_ret _ _ _ h3]
  simp only [if_neg h10, hwind]
  rfl

theorem processTime_complete (env : Env) (t : Int) (c w p1 c2 w2 p25 c3 w3 p10 : String)
    (d s : Int)
    (h1 : (fetchData env (env.url t "pm1")).2 = Res.ret (c, w, p1))
    (h2 : (fetchData env (env.url t "pm2.5")).2 = Res.ret (c2, w2, p25))
    (h3 : (fetchData env (env.url t "pm10")).2 = Res.ret (c3, w3, p10))
    (hfull : ¬ (c = "" ∨ w = "" ∨ p1 = "")) (h25 : p25 ≠ "") (h10 : p10 ≠ "")
    (hwind : extractWindData w = some (d, s)) :
    processTime env t =
      ((fetchData env (env.url t "pm1")).1 ++ ((fetchData env (env.url t "pm2.5")).1 ++
        ((fetchData env (env.url t "pm10")).1 ++
          (Event.saveData ⟨t, c, d, s, p1, p25, p10⟩ ::
            (if env.exec ⟨t, c, d, s, p1, p25, p10⟩ = true
              then [Event.printSample ⟨t, c, d, s, p1, p25, p10⟩]
              else [Event.logFatalf LogMsg.saveFailed])))),
        if env.exec ⟨t, c, d, s, p1, p25, p10⟩ = true then Res.ret () else Res.fatal) := by
  rw [processTime, bind_of_ret _ _ _ h1]
  simp only [if_neg hfull]
  rw [bind_of_ret _ _ _ h2]
  simp only [if_neg h25]
  rw [bind_of_ret _ _ _ h3]
  simp only [if_neg h10, hwind]
  cases hex : env.exec ⟨t, c, d, s, p1, p25, p10⟩ <;>
    simp [Proc.bind, saveData, hex, Proc.emit, Proc.fatalf]

theorem ne_empty_of_extractWindData (w : String) (d s : Int)
    (h : extractWindData w = some (d, s)) : w ≠ "" := by
  intro he
  subst he
  have hnone : extractWindData "" = none := by decide
  rw [hnone] at h
  cases h

theorem extractWindData_of_three (w : String) (h : 3 ≤ (fields w.toList).length) :
    ∃ d s, extractWindData w = some (d, s) := by
  have hs := (extractWindData_isSome_iff w).mpr h
  cases hw : extractWindData w with
  | none => simp [hw] at hs
  | some ds => exact ⟨ds.1, ds.2, rfl⟩

/-- C2: when the three fetches return and any of the coordinates, the wind
descriptor, pm1 (all from the PM1 fetch), pm25 or pm10 is empty, `processTime`
returns without a single call of `saveData`. -/
theorem C2_processTime_incomplete_not_saved (env : Env) (t : Int)
    (c w p1 c2 w2 p25 c3 w3 p10 : String)
    (h1 : (fetchData env (env.url t "pm1")).2 = Res.ret (c, w, p1))
    (h2 : (fetchData env (env.url t "pm2.5")).2 = Res.ret (c2, w2, p25))
    (h3 : (fetchData env (env.url t "pm10")).2 = Res.ret (c3, w3, p10))
    (hempty : c = "" ∨ w = "" ∨ p1 = "" ∨ p25 = "" ∨ p10 = "") :
    savedRows (processTime env t).1 = [] ∧ (processTime env t).2 = Res.ret () := by
  by_cases hfull : c = "" ∨ w = "" ∨ p1 = ""
  · rw [processTime_skip_pm1 env t c w p1 h1 hfull]
    refine ⟨?_, rfl⟩
    rw [savedRows_append, savedRows_fetchData]
    rfl
  · by_cases h25 : p25 = ""
    · subst h25
      rw [processTime_skip_pm25 env t c w p1 c2 w2 h1 h2 hfull]
      refine ⟨?_, rfl⟩
      rw [savedRows_append, savedRows_append, savedRows_fetchData, savedRows_fetchData]
      rfl
    · have h10 : p10 = "" := by tauto
      subst h10
      rw [processTime_skip_pm10 env t c w p1 c2 w2 p25 c3 w3 h1 h2 h3 hfull h25]
      refine ⟨?_, rfl⟩
      rw [savedRows_append, savedRows_append, savedRows_append, savedRows_fetchData,
        savedRows_fetchData, savedRows_fetchData]
      rfl

theorem fetchData_fixed (env : Env) (url htmlContent : String) (doc : Node)
    (hr : ∀ u a, env.render u a = some htmlContent) (hp : env.parse htmlContent = some doc) :
    fetchData env url = ([Event.render url 1], Res.ret (pageFields doc)) := by
  rw [fetchData_unfold, fetchAttempts_success env url 1 _ htmlContent doc (hr url 1) hp]

theorem fetchData_stubEnv (coords wind pm url : String) :
    fetchData (stubEnv coords wind pm) url = ([Event.render url 1], Res.ret (coords, wind, pm)) := by
  rw [fetchData_fixed (stubEnv coords wind pm) url "page" (stubPage coords wind pm)
    (fun _ _ => rfl) rfl, pageFields_stubPage]

/-- C2 at a page that shows no coordinates: nothing is saved. -/
theorem C2_processTime_incomplete_not_saved_witness :
    savedRows (processTime (stubEnv "" "270 at 15" "5") 0).1 = [] ∧
      (processTime (stubEnv "" "270 at 15" "5") 0).2 = Res.ret () :=
  C2_processTime_incomplete_not_saved (stubEnv "" "270 at 15" "5") 0
    "" "270 at 15" "5" "" "270 at 15" "5" "" "270 at 15" "5"
    (by rw [fetchData_stubEnv]) (by rw [fetchData_stubEnv]) (by rw [fetchData_stubEnv])
    (Or.inl rfl)

theorem processTime_fixed (env : Env) (t : Int) (htmlContent : String) (doc : Node)
    (c w p : String) (d s : Int)
    (hr : ∀ u a, env.render u a = some htmlContent) (hp : env.parse htmlContent = some doc)
    (hf : pageFields doc = (c, w, p)) (hex : ∀ row, env.exec row = true)
    (hc : c ≠ "") (hpm : p ≠ "") (hwind : extractWindData w = some (d, s)) :
    processTime env t =
      ([Event.render (env.url t "pm1") 1, Event.render (env.url t "pm2.5") 1,
        Event.render (env.url t "pm10") 1, Event.saveData ⟨t, c, d, s, p, p, p⟩,
        Event.printSample ⟨t, c, d, s, p, p, p⟩], Res.ret ()) := by
  have hw := ne_empty_of_extractWindData w d s hwind
  have hfetch : ∀ u, fetchData env u = ([Event.render u 1], Res.ret (c, w, p)) := by
    intro u
    rw [fetchData_fixed env u htmlContent doc hr hp, hf]
  rw [processTime_complete env t c w p c w p c w p d s (by rw [hfetch]) (by rw [hfetch])
    (by rw [hfetch]) (by tauto) hpm hpm hwind]
  simp [hfetch, hex]

theorem timePoints_three (start : Int) :
    timePoints start (start + 3 * hour) = [start, start + hour, start + 2 * hour] := by
  have := hour_pos
  rw [timePoints, dispatchLoop_of_lt _ _ (by omega), dispatchLoop_of_lt _ _ (by omega),
    dispatchLoop_of_lt _ _ (by omega), dispatchLoop_of_le _ _ (by omega)]
  simp only [List.cons.injEq, true_and, and_true]
  omega

theorem savedRows_complete (env : Env) (a b c : List Event) (row : Row) :
    savedRows (a ++ (b ++ (c ++ (Event.saveData row ::
      (if env.exec row = true then [Event.printSample row]
        else [Event.logFatalf LogMsg.saveFailed]))))) =
      savedRows a ++ (savedRows b ++ (savedRows c ++ [row])) := by
  rw [savedRows_append, savedRows_append, savedRows_append]
  cases env.exec row <;> simp [savedRows]

theorem mainRun_fixed (env : Env) (start : Int) (htmlContent : String) (doc : Node)
    (c w p : String) (d s : Int)
    (hr : ∀ u a, env.render u a = some htmlContent) (hp : env.parse htmlContent = some doc)
    (hf : pageFields doc = (c, w, p)) (hex : ∀ row, env.exec row = true)
    (hc : c ≠ "") (hpm : p ≠ "") (hwind : extractWindData w = some (d, s)) :
    savedRows (mainRun env start (start + 3 * hour)).1 =
        [⟨start, c, d, s, p, p, p⟩, ⟨start + hour, c, d, s, p, p, p⟩,
          ⟨start + 2 * hour, c, d, s, p, p, p⟩] ∧
      (mainRun env start (start + 3 * hour)).2 = Res.ret () := by
  have h0 := processTime_fixed env start htmlContent doc c w p d s hr hp hf hex hc hpm hwind
  have h1 := processTime_fixed env (start + hour) htmlContent doc c w p d s hr hp hf hex hc hpm
    hwind
  have h2 := processTime_fixed env (start + 2 * hour) htmlContent doc c w p d s hr hp hf hex hc
    hpm hwind
  simp only [mainRun, timePoints_three, runSequential, Proc.bind, h0, h1, h2, Proc.pure]
  simp [savedRows]

/-- C3: when the PM1 fetch yields non-empty coordinates `c`, a wind descriptor
`w` of at least three tokens and a non-empty `pm1`, and the PM2.5 and PM10
fetches yield non-empty `pm25` and `pm10`, `processTime` calls `saveData`
exactly once, with the time point, `c`, the direction and speed
`extractWindData` reads from `w`, and `pm1`, `pm25`, `pm10`; the coordinates
and descriptors of the second and third fetch play no part. Hence a run over
three hours with a renderer of fixed markup and a store that accepts every row
saves exactly three rows, one per hour of the window, and returns. -/
theorem C3_processTime_saves_once :
    (∀ (env : Env) (t : Int) (c w p1 c2 w2 p25 c3 w3 p10 : String),
      (fetchData env (env.url t "pm1")).2 = Res.ret (c, w, p1) →
      (fetchData env (env.url t "pm2.5")).2 = Res.ret (c2, w2, p25) →
      (fetchData env (env.url t "pm10")).2 = Res.ret (c3, w3, p10) →
      c ≠ "" → 3 ≤ (fields w.toList).length → p1 ≠ "" → p25 ≠ "" → p10 ≠ "" →
      ∃ d s, extractWindData w = some (d, s) ∧
        savedRows (processTime env t).1 = [⟨t, c, d, s, p1, p25, p10⟩]) ∧
    (∀ (env : Env) (start : Int) (htmlContent : String) (doc : Node) (c w p : String),
      (∀ u a, env.render u a = some htmlContent) → env.parse htmlContent = some doc →
      pageFields doc = (c, w, p) → (∀ row, env.exec row = true) →
      c ≠ "" → 3 ≤ (fields w.toList).length → p ≠ "" →
      ∃ d s, extractWindData w = some (d, s) ∧
        savedRows (mainRun env start (start + 3 * hour)).1 =
          [⟨start, c, d, s, p, p, p⟩, ⟨start + hour, c, d, s, p, p, p⟩,
            ⟨start + 2 * hour, c, d, s, p, p, p⟩] ∧
        (mainRun env start (start + 3 * hour)).2 = Res.ret ()) := by
  constructor
  · intro env t c w p1 c2 w2 p25 c3 w3 p10 h1 h2 h3 hc htok hp1 hp25 hp10
    obtain ⟨d, s, hwind⟩ := extractWindData_of_three w htok
    have hw := ne_empty_of_extractWindData w d s hwind
    refine ⟨d, s, hwind, ?_⟩
    rw [processTime_complete env t c w p1 c2 w2 p25 c3 w3 p10 d s h1 h2 h3 (by tauto) hp25 hp10
      hwind]
    rw [savedRows_complete, savedRows_fetchData, savedRows_fetchData, savedRows_fetchData]
    rfl
  · intro env start htmlContent doc c w p hr hp hf hex hc htok hpm
    obtain ⟨d, s, hwind⟩ := extractWindData_of_three w htok
    exact ⟨d, s, hwind, mainRun_fixed env start htmlContent doc c w p d s hr hp hf hex hc hpm hwind⟩

/-- C3 on the window of 28 May 2023, 00:00 to 03:00 UTC, with a stub renderer:
three rows are saved, one per hour, with the values of the fixture. -/
theorem C3_processTime_saves_once_witness :
    savedRows (mainRun (stubEnv "60.17, 24.94" "270 at 15" "5") 1685232000000000000
        (1685232000000000000 + 3 * hour)).1 =
      [⟨1685232000000000000, "60.17, 24.94", 270, 15, "5", "5", "5"⟩,
        ⟨1685232000000000000 + hour, "60.17, 24.94", 270, 15, "5", "5", "5"⟩,
        ⟨1685232000000000000 + 2 * hour, "60.17, 24.94", 270, 15, "5", "5", "5"⟩] := by
  obtain ⟨d, s, hwind, hrows, _⟩ :=
    C3_processTime_saves_once.2 (stubEnv "60.17, 24.94" "270 at 15" "5") 1685232000000000000
      "page" (stubPage "60.17, 24.94" "270 at 15" "5") "60.17, 24.94" "270 at 15" "5"
      (fun _ _ => rfl) rfl (pageFields_stubPage _ _ _) (fun _ => rfl) (by decide) (by decide)
      (by decide)
  have hw : extractWindData "270 at 15" = some (270, 15) := by decide
  rw [hw] at hwind
  simp only [Option.some.injEq, Prod.mk.injEq] at hwind
  obtain ⟨rfl, rfl⟩ := hwind
  exact hrows

/-- C9: `extractWindData` indexes its tokens without failure exactly when the
descriptor has at least three of them; a blank descriptor and a two-token one
panic; and a sample whose fields are all non-empty, with the wind descriptor
`270 at`, passes every guard of `processTime` and makes it panic after the
three fetches, with nothing saved. -/
theorem C9_extractWindData_index_panic :
    (∀ w : String, (extractWindData w).isSome = true ↔ 3 ≤ (fields w.toList).length) ∧
    extractWindData " " = none ∧
    extractWindData "270 at" = none ∧
    (∀ url, fetchData (stubEnv "60.17, 24.94" "270 at" "3") url =
        ([Event.render url 1], Res.ret ("60.17, 24.94", "270 at", "3"))) ∧
    ("60.17, 24.94" ≠ "" ∧ "270 at" ≠ "" ∧ "3" ≠ "") ∧
    processTime (stubEnv "60.17, 24.94" "270 at" "3") 0 =
      ([Event.render "pm1" 1, Event.render "pm2.5" 1, Event.render "pm10" 1], Res.panic) ∧
    savedRows (processTime (stubEnv "60.17, 24.94" "270 at" "3") 0).1 = [] := by
  have hproc : processTime (stubEnv "60.17, 24.94" "270 at" "3") 0 =
      ([Event.render "pm1" 1, Event.render "pm2.5" 1, Event.render "pm10" 1], Res.panic) := by
    rw [processTime_panic (stubEnv "60.17, 24.94" "270 at" "3") 0
      "60.17, 24.94" "270 at" "3" "60.17, 24.94" "270 at" "3" "60.17, 24.94" "270 at" "3"
      (by rw [fetchData_stubEnv]) (by rw [fetchData_stubEnv]) (by rw [fetchData_stubEnv])
      (by decide) (by decide) (by decide) (by decide)]
    simp only [fetchData_stubEnv]
    rfl
  refine ⟨extractWindData_isSome_iff, by decide, by decide, fun url => fetchData_stubEnv _ _ _ url,
    by decide, hproc, ?_⟩
  rw [hproc]
  rfl

/-- C10, as the code has it: on a descriptor of at least three tokens
`extractWindData` returns a pair and no error; direction and speed are the
values of the longest leading optionally-signed decimal integer of the first
and of the third token when that value is a value of Go's 64-bit `int`, and 0
when the token has no leading integer or its value is outside that range. So
`270° @ 15 km/h` gives (270, 15), `N/A at calm` gives (0, 0), and
`processTime` saves the latter as an ordinary row. -/
theorem C10_extractWindData_leading_integers :
    (∀ (w : String) (p0 p1 p2 : List Char) (rest : List (List Char)),
      fields w.toList = p0 :: p1 :: p2 :: rest →
      extractWindData w =
        some ((match leadingInt p0 with
                | some v => if fitsInt v = true then v else 0
                | none => 0),
              (match leadingInt p2 with
                | some v => if fitsInt v = true then v else 0
                | none => 0))) ∧
    extractWindData "270° @ 15 km/h" = some (270, 15) ∧
    extractWindData "N/A at calm" = some (0, 0) ∧
    (∀ (t : Int) (c p : String), c ≠ "" → p ≠ "" →
      processTime (stubEnv c "N/A at calm" p) t =
        ([Event.render "pm1" 1, Event.render "pm2.5" 1, Event.render "pm10" 1,
          Event.saveData ⟨t, c, 0, 0, p, p, p⟩, Event.printSample ⟨t, c, 0, 0, p, p, p⟩],
          Res.ret ())) := by
  refine ⟨?_, by decide, by decide, ?_⟩
  · intro w p0 p1 p2 rest htok
    exact extractWindData_of_tokens w p0 p1 p2 rest htok
  · intro t c p hc hp
    exact processTime_fixed (stubEnv c "N/A at calm" p) t "page" (stubPage c "N/A at calm" p)
      c "N/A at calm" p 0 0 (fun _ _ => rfl) rfl (pageFields_stubPage _ _ _) (fun _ => rfl)
      hc hp (by decide)

/-- C10 at a descriptor with units glued to the numbers: `270° @ 15km/h`
gives direction 270 and speed 15. -/
theorem C10_extractWindData_leading_integers_witness :
    extractWindData "270° @ 15km/h" =
      some ((match leadingInt "270°".toList with
              | some v => if fitsInt v = true then v else 0
              | none => 0),
            (match leadingInt "15km/h".toList with
              | some v => if fitsInt v = true then v else 0
              | none => 0)) :=
  C10_extractWindData_leading_integers.1 "270° @ 15km/h" "270°".toList "@".toList
    "15km/h".toList [] (by decide)

/-- C10 as stated fails: the third token of `270 at 99999999999999999999km/h`
has the leading integer 99999999999999999999, and the speed returned is 0. -/
theorem C10_counterexample :
    fields "270 at 99999999999999999999km/h".toList =
        ["270".toList, "at".toList, "99999999999999999999km/h".toList] ∧
    leadingInt "99999999999999999999km/h".toList = some 99999999999999999999 ∧
    extractWindData "270 at 99999999999999999999km/h" = some (270, 0) ∧
    extractWindData "270 at 99999999999999999999km/h" ≠ some (270, 99999999999999999999) := by
  decide

/-- C1 on a window of three hours: the points are the start and the two hours
after it. -/
theorem C1_timePoints_hourly_witness :
    (timePoints 0 (3 * hour)).length =
      (if (0 : Int) < 3 * hour then
        (⌈(((3 * hour - 0 : Int) : Int) : ℚ) / ((hour : Int) : ℚ)⌉).toNat else 0) :=
  (C1_timePoints_hourly 0 (3 * hour)).2.1

/-- C5 with a renderer that fails twice and then succeeds: three attempts, the
third one successful, and the fields of its page returned. -/
theorem C5_fetchData_first_success_witness :
    fetchData (flakyEnv 2 "60.17, 24.94" "270 at 15" "5") "pm1" =
        (((List.range' 1 (3 - 1)).map (failedAttempt "pm1")).flatten ++ [Event.render "pm1" 3],
          Res.ret (pageFields (stubPage "60.17, 24.94" "270 at 15" "5"))) ∧
      renderAttempts (fetchData (flakyEnv 2 "60.17, 24.94" "270 at 15" "5") "pm1").1 =
        List.range' 1 3 ∧
      (renderAttempts (fetchData (flakyEnv 2 "60.17, 24.94" "270 at 15" "5") "pm1").1).length ≤ 3 :=
  C5_fetchData_first_success.1 (flakyEnv 2 "60.17, 24.94" "270 at 15" "5") "pm1" 3 "page"
    (stubPage "60.17, 24.94" "270 at 15" "5") (by decide) (by decide)
    (fun j _ hj => by
      have hle : j ≤ 2 := by omega
      simp [flakyEnv, hle])
    rfl rfl

/-- C6 with a renderer that never succeeds: three attempts, two sleeps of five
seconds, and a fatal exit. -/
theorem C6_fetchData_exhausted_witness :
    renderAttempts (fetchData (flakyEnv 3 "" "" "") "pm1").1 = [1, 2, 3] ∧
      sleeps (fetchData (flakyEnv 3 "" "" "") "pm1").1 = [5 * 1000000000, 5 * 1000000000] ∧
      (fetchData (flakyEnv 3 "" "" "") "pm1").2 = Res.fatal :=
  have h := C6_fetchData_exhausted (flakyEnv 3 "" "" "") "pm1"
    (fun j _ hj => by simp [flakyEnv, hj])
  ⟨h.2.1, h.2.2.1, by rw [h.1]⟩

/-! ## Field extractor -/

theorem matchesIn_append (m : List Node → Node → Bool) (a b : List (List Node × Node)) :
    matchesIn m (a ++ b) = matchesIn m a ++ matchesIn m b := by
  simp [matchesIn]

theorem textData_append (a b : List (List Node × Node)) :
    textData (a ++ b) = textData a ++ textData b := by
  simp [textData]

theorem concatStrings_append (a b : List String) :
    concatStrings (a ++ b) = concatStrings a ++ concatStrings b := by
  induction a with
  | nil => simp [concatStrings]
  | cons s ss ih => simp [concatStrings, ih, String.append_assoc]

mutual
theorem matchAllInto_eq (m : List Node → Node → Bool) :
    ∀ (n : Node) (ancs : List Node) (storage : List Node),
      matchAllInto m ancs n storage = storage ++ matchesIn m (subtree ancs n)
  | .mk ty d at_ ch, ancs, storage => by
    rw [matchAllInto, matchAllChildren_eq m ch, subtree]
    by_cases h : m ancs (Node.mk ty d at_ ch) = true
    · simp [matchesIn, h]
    · simp [matchesIn, h]
theorem matchAllChildren_eq (m : List Node → Node → Bool) :
    ∀ (cs : List Node) (ancs : List Node) (storage : List Node),
      matchAllChildren m ancs cs storage = storage ++ matchesIn m (subtrees ancs cs)
  | [], ancs, storage => by simp [matchAllChildren, subtrees, matchesIn]
  | c :: cs, ancs, storage => by
    rw [matchAllChildren, matchAllInto_eq m c, matchAllChildren_eq m cs, subtrees,
      matchesIn_append, List.append_assoc]
end

mutual
theorem writeText_eq :
    ∀ (n : Node) (ancs : List Node) (acc : String),
      writeText n acc = acc ++ concatStrings (textData (subtree ancs n))
  | .mk ty d at_ ch, ancs, acc => by
    rw [writeText, writeTextList_eq ch (Node.mk ty d at_ ch :: ancs), subtree]
    by_cases h : ty = NodeType.textNode
    · simp [textData, h, Node.type, Node.data, concatStrings, String.append_assoc]
    · simp [textData, h, Node.type, Node.data, concatStrings]
theorem writeTextList_eq :
    ∀ (cs : List Node) (ancs : List Node) (acc : String),
      writeTextList cs acc = acc ++ concatStrings (textData (subtrees ancs cs))
  | [], ancs, acc => by simp [writeTextList, subtrees, textData, concatStrings]
  | c :: cs, ancs, acc => by
    rw [writeTextList, writeText_eq c ancs, writeTextList_eq cs ancs, subtrees,
      textData_append, concatStrings_append, String.append_assoc]
end

theorem foldl_writeText (nodes : List Node) :
    ∀ acc : String,
      nodes.foldl (fun acc n => writeText n acc) acc =
        acc ++ concatStrings (nodes.map textContent) := by
  induction nodes with
  | nil =>
    intro acc
    simp [concatStrings]
  | cons n ns ih =>
    intro acc
    rw [List.foldl_cons, ih, writeText_eq n [], List.map_cons, concatStrings,
      String.append_assoc]
    rfl

theorem selectionText_eq (nodes : List Node) :
    selectionText nodes = concatStrings (nodes.map textContent) := by
  rw [selectionText, foldl_writeText]
  simp

theorem matchNode_element (sel : Selector) (ancs : List Node) (n : Node)
    (h : sel.matchNode ancs n = true) : n.type = NodeType.elementNode := by
  cases sel with
  | compound c =>
    simp only [Selector.matchNode, Compound.matchNode, Bool.and_eq_true, beq_iff_eq] at h
    exact h.1.1
  | descendant a c =>
    simp only [Selector.matchNode, Compound.matchNode, Bool.and_eq_true, beq_iff_eq] at h
    exact h.1.1.1

theorem findInChildren_eq (sel : Selector) (ancs : List Node) (cs : List Node) :
    ∀ result : List Node, wellFormedNodes cs = true →
      findInChildren sel.matchNode ancs cs result =
        result ++ matchesIn sel.matchNode (subtrees ancs cs) := by
  induction cs with
  | nil =>
    intro result _
    simp [findInChildren, subtrees, matchesIn]
  | cons c cs ih =>
    intro result hwf
    rw [wellFormedNodes, Bool.and_eq_true] at hwf
    rw [findInChildren, ih _ hwf.2, subtrees, matchesIn_append]
    by_cases hel : c.type = NodeType.elementNode
    · simp [hel, matchAllInto_eq]
    · have hnot : (c.type == NodeType.elementNode) = false := by simpa using hel
      rw [hnot]
      cases c with
      | mk ty d at_ ch =>
        have hch : ch = [] := by
          have h1 := hwf.1
          simp only [wellFormedNode, Bool.and_eq_true, Bool.or_eq_true, beq_iff_eq,
            List.isEmpty_iff] at h1
          rcases h1.1 with h2 | h2
          · exact absurd h2 hel
          · exact h2
        subst hch
        have hm : sel.matchNode ancs (Node.mk ty d at_ []) = false := by
          cases hmm : sel.matchNode ancs (Node.mk ty d at_ []) with
          | false => rfl
          | true => exact absurd (matchNode_element sel ancs _ hmm) hel
        simp [subtree, subtrees, matchesIn, hm]

theorem find_eq_matchingElements (root : Node) (sel : Selector)
    (hwf : wellFormedDoc root = true) : find root sel = matchingElements root sel := by
  rw [find, findInChildren_eq sel [root] root.children [] hwf]
  rfl

/-- C7, as the code has it: on markup that parses to a well-formed document,
`extractData` returns the text contents of all the elements matching the
selector, concatenated in document order: the empty string when no element
matches and the text content of the matching element when there is exactly
one. -/
theorem C7_extractData_text_of_matches (parse : String → Option Node) (htmlContent : String)
    (root : Node) (sel : Selector)
    (hparse : parse htmlContent = some root) (hwf : wellFormedDoc root = true) :
    extractData parse htmlContent sel =
        Proc.pure (concatStrings ((matchingElements root sel).map textContent)) ∧
    (matchingElements root sel = [] → extractData parse htmlContent sel = Proc.pure "") ∧
    (∀ e, matchingElements root sel = [e] →
        extractData parse htmlContent sel = Proc.pure (firstMatchText root sel) ∧
        firstMatchText root sel = textContent e) := by
  have heq : extractData parse htmlContent sel =
      Proc.pure (concatStrings ((matchingElements root sel).map textContent)) := by
    simp only [extractData, hparse]
    rw [selectionText_eq, find_eq_matchingElements root sel hwf]
  refine ⟨heq, ?_, ?_⟩
  · intro hnone
    rw [heq, hnone]
    rfl
  · intro e hone
    rw [heq, firstMatchText, hone]
    simp [concatStrings]

/-- C7 on the stub page: the wind selector has one match and its text is
returned. -/
theorem C7_extractData_text_of_matches_witness :
    extractData (fun _ => some (stubPage "60.17, 24.94" "270 at 15" "5")) "page" selWind =
      Proc.pure (concatStrings
        ((matchingElements (stubPage "60.17, 24.94" "270 at 15" "5") selWind).map textContent)) :=
  (C7_extractData_text_of_matches (fun _ => some (stubPage "60.17, 24.94" "270 at 15" "5"))
    "page" (stubPage "60.17, 24.94" "270 at 15" "5") selWind rfl (by decide)).1

/-- C7 as stated fails: on a page whose particulate box holds two labelled
parts, the first element matching the selector has the text `5`, and
`extractData` returns the text of both parts. -/
theorem C7_counterexample :
    wellFormedDoc twoPartPage = true ∧
    (matchingElements twoPartPage selPm).length = 2 ∧
    firstMatchText twoPartPage selPm = "5" ∧
    (extractData (fun _ => some twoPartPage) "page" selPm).2 = Res.ret "5µg/m³" ∧
    (extractData (fun _ => some twoPartPage) "page" selPm).2 ≠
      Res.ret (firstMatchText twoPartPage selPm) := by
  decide

end AirQuality
